import Mathlib

/-!
Verification of the virtual-DOM reconciliation engine of
`react-under-the-hood` (`src/session-1/app.js` and the hooks variant of the
same file).

Modelling conventions (shallow embedding of the JavaScript source):

* JS objects used as attribute maps are modelled as insertion-ordered
  association lists `List (String × _)`; `for ... in` and `Object.keys`
  iterate in list order, which matches the JS insertion-order guarantee for
  non-numeric string keys.  Keys are unique in every object the program
  builds (JS objects cannot hold duplicate keys).
* JS numbers in this program are integer counters and literals, modelled by
  `Int`; strings by `String`; functions (event handlers) by an identity
  token `PVal.handler id`, since the program only ever installs and compares
  them by reference.
* `createElement(type, props, ...children)` builds `{ type, props:
  { ...props, children } }`.  We store the element as
  `VDom.elem type props children` and recover the merged props object
  (exactly the object-literal semantics: in-place overwrite of an existing
  `children` key, else appended last) with `elemProps` whenever the source
  reads `node.props`.  Every element the program constructs goes through
  `createElement`, so read-time merging is observationally the same as the
  source's construction-time merging.
* JS strict equality `===` on primitives is structural; on arrays and
  functions it is reference equality.  `vdomBEq`/`xvalBEq` model it
  structurally (handlers compare by identity token).  For every input used
  below this coincides with the JS verdict: scalar props compare
  structurally in JS too, and the one place where arrays are compared
  against themselves (diffing a tree against itself) the JS arrays are the
  same object, hence `===`, matching structural equality.
* Property accesses that throw a `TypeError` in JS (`null.type`,
  `undefined.type`) are modelled with `Except Unit`; `Except.error ()` is
  the thrown-exception outcome.
* The live DOM is modelled by the inductive `DomNode`.  Assigning to the
  read-only `Element.children` accessor in sloppy mode is silently ignored
  by the DOM, which `domAssign` reproduces.  `document.createTextNode`
  stringifies numbers.
-/

/-- A JS scalar appearing as a leaf virtual node or a primitive prop value. -/
inductive Scalar where
  | str (s : String)
  | num (n : Int)
deriving DecidableEq

/-- A primitive prop value stored in an element's own `props` object:
strings, numbers, functions (by identity token), and `null`. -/
inductive PVal where
  | str (s : String)
  | num (n : Int)
  | handler (id : Nat)
  | pnull
deriving DecidableEq

/-- A virtual-DOM value as `diff` receives it: `undefined`, `null`, a text
leaf (JS string/number), or an element `{ type, props, children }` where
`children` is the array the object literal `{ ...props, children }` holds
under the `children` key. -/
inductive VDom where
  | undef
  | jsNull
  | leaf (s : Scalar)
  | elem (type : String) (props : List (String × PVal)) (children : List VDom)

/-- The value of one entry of a props object as the differ and the DOM see
it: either a primitive or the children array. -/
inductive XVal where
  | base (v : PVal)
  | arr (ns : List VDom)

/-- One attribute patch produced by `diffProps`:
`{ type: "SET_PROP", key, value }` or `{ type: "REMOVE_PROP", key }`. -/
inductive PropPatch where
  | setProp (key : String) (value : XVal)
  | removeProp (key : String)

/-- One edit script produced by `diff`:
`REMOVE`, `REPLACE newNode`, `TEXT newNode`, or
`UPDATE propPatches childPatches`. -/
inductive Script where
  | remove
  | replace (newNode : VDom)
  | text (newNode : VDom)
  | update (propPatches : List PropPatch) (childPatches : List Script)

/-- A live DOM node: a text node with its `textContent`, or an element with
its tag, its (expando/IDL) properties, and its `childNodes`. -/
inductive DomNode where
  | text (content : String)
  | elem (tag : String) (props : List (String × XVal)) (children : List DomNode)

/-- JS property lookup `obj[k]` on an association list: `some` the stored
value, `none` for `undefined`. -/
def getProp {α : Type} (l : List (String × α)) (k : String) : Option α :=
  match l with
  | [] => none
  | (k', v) :: rest => if k' = k then some v else getProp rest k

/-- JS property assignment `obj[k] = v` on an association list: overwrite in
place if the key exists (JS keeps the original key position), else append
(JS appends new keys last). -/
def setKey {α : Type} (l : List (String × α)) (k : String) (v : α) :
    List (String × α) :=
  match l with
  | [] => [(k, v)]
  | (k', v') :: rest =>
      if k' = k then (k', v) :: rest else (k', v') :: setKey rest k v

/-- JS `typeof`. -/
def typeOf : VDom → String
  | .undef => "undefined"
  | .jsNull => "object"
  | .leaf (.str _) => "string"
  | .leaf (.num _) => "number"
  | .elem _ _ _ => "object"

/-- The JS expression `x.type`: throws a `TypeError` on `null`/`undefined`,
yields `undefined` on scalars, and the tag string on elements. -/
def dotType : VDom → Except Unit (Option String)
  | .undef => .error ()
  | .jsNull => .error ()
  | .leaf _ => .ok none
  | .elem t _ _ => .ok (some t)

mutual
/-- Structural model of JS strict equality `===` on vdom values (see the
header note on reference vs. structural equality). -/
def vdomBEq : VDom → VDom → Bool
  | .undef, .undef => true
  | .jsNull, .jsNull => true
  | .leaf a, .leaf b => a == b
  | .elem t1 p1 c1, .elem t2 p2 c2 => t1 == t2 && p1 == p2 && vdomsBEq c1 c2
  | _, _ => false

/-- Pointwise `vdomBEq` on children arrays. -/
def vdomsBEq : List VDom → List VDom → Bool
  | [], [] => true
  | a :: as_, b :: bs => vdomBEq a b && vdomsBEq as_ bs
  | _, _ => false
end

/-- Model of JS strict equality on prop-object entries. -/
def xvalBEq : XVal → XVal → Bool
  | .base a, .base b => a == b
  | .arr a, .arr b => vdomsBEq a b
  | _, _ => false

/-- `createElement(type, props, ...children)` from the source: returns
`{ type, props: { ...props, children } }`.  A `null` props argument is the
empty list (spreading `null` adds nothing). -/
def createElement (type : String) (props : List (String × PVal))
    (children : List VDom) : VDom :=
  .elem type props children

/-- The props object `{ ...props, children }` of an element, as JS stores
it: the spread entries in order, with the `children` key bound to the
children array (overwritten in place if `props` already had it). -/
def mergedProps (props : List (String × PVal)) (children : List VDom) :
    List (String × XVal) :=
  setKey (props.map fun kv => (kv.1, XVal.base kv.2)) "children"
    (XVal.arr children)

/-- The JS expression `node.props`: `undefined` on scalars (modelled
`none`), the merged props object on elements. -/
def nodeProps : VDom → Option (List (String × XVal))
  | .elem _ p cs => some (mergedProps p cs)
  | _ => none

/-- Reading an element's props object (`node.props`) with the empty object
as fallback, used where the source destructures an element. -/
def elemProps : VDom → List (String × XVal)
  | .elem _ p cs => mergedProps p cs
  | _ => []

/-- The JS expression `node.props?.children || []`: the children array when
present, else the empty array. -/
def childrenOf : VDom → List VDom
  | .elem _ _ cs => cs
  | _ => []

/-- `diffProps(oldProps = {}, newProps = {})` from the source: for every key
of `newProps`, emit `SET_PROP` when `oldProps[key] !== newProps[key]`; then
for every key of `oldProps` not `in` `newProps`, emit `REMOVE_PROP`.  The
`Option` arguments model the JS default parameters (`none` = `undefined`,
replaced by `{}`).  Note the source does NOT special-case the `"children"`
key here. -/
def diffProps (oldProps? newProps? : Option (List (String × XVal))) :
    List PropPatch :=
  let oldP := oldProps?.getD []
  let newP := newProps?.getD []
  (newP.filterMap fun kv =>
    match getProp newP kv.1 with
    | some v =>
        match getProp oldP kv.1 with
        | some ov => if xvalBEq ov v then none else some (.setProp kv.1 v)
        | none => some (.setProp kv.1 v)
    | none => none) ++
  (oldP.filterMap fun kv =>
    if (getProp newP kv.1).isNone then some (.removeProp kv.1) else none)

/-- JS `oldNode !== newNode` at the point where both are known scalars
(strings or numbers of equal `typeof`): scalar comparison. -/
def scalarNeq : VDom → VDom → Bool
  | .leaf a, .leaf b => !(a == b)
  | _, _ => true

theorem sizeOf_childrenOf_le (v : VDom) : sizeOf (childrenOf v) ≤ sizeOf v := by
  cases v <;> simp [childrenOf]

theorem sizeOf_listVDom_pos (l : List VDom) : 0 < sizeOf l := by
  cases l <;> simp

mutual
/-- `diff(oldNode, newNode)` from the source, in the source's case order:
1. `newNode` absent → `REMOVE`;
2. `typeof` mismatch, or `.type` mismatch (where reading `.type` off a
   `null` old node throws) → `REPLACE`;
3. both scalars and different → `TEXT`;
4. otherwise → `UPDATE` of `diffProps` and `diffChildren`. -/
def diff (o n : VDom) : Except Unit Script :=
  match n with
  | .jsNull => .ok .remove
  | .undef => .ok .remove
  | n =>
    if typeOf o ≠ typeOf n then .ok (.replace n)
    else
      match dotType o with
      | .error e => .error e
      | .ok ot =>
        match dotType n with
        | .error e => .error e
        | .ok nt =>
          if ot ≠ nt then .ok (.replace n)
          else if (typeOf o == "string" || typeOf o == "number")
              && scalarNeq o n then .ok (.text n)
          else
            match diffChildren (childrenOf o) (childrenOf n) with
            | .error e => .error e
            | .ok cp => .ok (.update (diffProps (nodeProps o) (nodeProps n)) cp)
termination_by sizeOf o + sizeOf n + 1
decreasing_by
  have h1 := sizeOf_childrenOf_le o
  have h2 := sizeOf_childrenOf_le n
  omega

/-- `diffChildren(oldChildren = [], newChildren = [])` from the source: one
recursive `diff` per index `i < max(len old, len new)`, where an index past
an array's end reads `undefined`. -/
def diffChildren : List VDom → List VDom → Except Unit (List Script)
  | [], [] => .ok []
  | o :: os, n :: ns =>
      match diff o n with
      | .error e => .error e
      | .ok s =>
        match diffChildren os ns with
        | .error e => .error e
        | .ok rest => .ok (s :: rest)
  | o :: os, [] =>
      match diff o .undef with
      | .error e => .error e
      | .ok s =>
        match diffChildren os [] with
        | .error e => .error e
        | .ok rest => .ok (s :: rest)
  | [], n :: ns =>
      match diff .undef n with
      | .error e => .error e
      | .ok s =>
        match diffChildren [] ns with
        | .error e => .error e
        | .ok rest => .ok (s :: rest)
termination_by os ns => sizeOf os + sizeOf ns
decreasing_by
  all_goals simp
  all_goals first
    | omega
    | (have h := sizeOf_listVDom_pos os; omega)
    | (have h := sizeOf_listVDom_pos ns; omega)
end

/-- The property table of a live node (a text node has none the engine
reads back). -/
def domProps : DomNode → List (String × XVal)
  | .text _ => []
  | .elem _ p _ => p

/-- ASCII lowercasing of one character.  The only keys the source ever
lowercases are ASCII event-handler names such as `onClick`, on which JS
`toLowerCase` is exactly ASCII lowercasing. -/
def charLower (c : Char) : Char :=
  if 65 ≤ c.toNat ∧ c.toNat ≤ 90 then Char.ofNat (c.toNat + 32) else c

/-- The JS expression `key.toLowerCase()` on the ASCII keys this program
uses. -/
def jsToLower (s : String) : String :=
  ⟨s.data.map charLower⟩

/-- The JS expression `key.startsWith("on")` (the source only ever tests
this one literal). -/
def startsWithOn (s : String) : Bool :=
  match s.data with
  | c1 :: c2 :: _ => c1 == 'o' && c2 == 'n'
  | _ => false

/-- Assignment `domNode[key] = value` on a live node's property table.  The
one key the engine ever writes that is a read-only DOM accessor is
`children` (an `Element` getter with no setter); in sloppy mode that
assignment is silently ignored, which this reproduces.  All other keys used
by the engine behave as plain writable properties. -/
def domAssign (props : List (String × XVal)) (k : String) (v : XVal) :
    List (String × XVal) :=
  if k = "children" then props else setKey props k v

/-- The stringification `document.createTextNode` / `textContent`
assignment performs on the leaf payload.  Only scalars ever reach it in the
source (non-scalars would already have thrown earlier). -/
def stringifyLeaf : VDom → String
  | .leaf (.str s) => s
  | .leaf (.num n) => toString n
  | _ => ""

/-- The prop-installation loop of `createRealDomNode`: iterate the keys of
the vdom's props object over a fresh node; `on`-prefixed keys install the
handler under the lowercased name, the `children` key is skipped, all other
keys are assigned as properties. -/
def installProps (ps : List (String × XVal)) : List (String × XVal) :=
  ps.foldl
    (fun acc kv =>
      if startsWithOn kv.1 then domAssign acc (jsToLower kv.1) kv.2
      else if kv.1 ≠ "children" then domAssign acc kv.1 kv.2
      else acc)
    []

mutual
/-- `createRealDomNode(vdom)` from the source: scalars become text nodes
(numbers stringified); elements become a fresh element of the vdom's tag
with its non-`children` props installed and its children materialized and
appended in order.  On `null`/`undefined` the source throws
(`vdom.type` access); those cases never arise under the well-formedness
hypotheses used below, and are mapped to an empty text node to keep the
model total. -/
def createRealDomNode : VDom → DomNode
  | .leaf (.str s) => .text s
  | .leaf (.num n) => .text (toString n)
  | .elem t p cs =>
      .elem t (installProps (mergedProps p cs)) (createRealDomNodes cs)
  | .undef => .text ""
  | .jsNull => .text ""

/-- The `children.forEach(appendChild ∘ createRealDomNode)` loop. -/
def createRealDomNodes : List VDom → List DomNode
  | [] => []
  | c :: cs => createRealDomNode c :: createRealDomNodes cs
end

/-- `applyPropPatches(domNode, propPatches)` from the source, acting on an
element's property table: `SET_PROP` with an `on`-prefixed key assigns
under the lowercased key, otherwise under the key itself; `REMOVE_PROP`
assigns `null` under the key itself — note the source does NOT lowercase
the key in the `REMOVE_PROP` case.  On a text node the writes are expando
properties invisible to the observable tree (tag/props/text/children); the
engine only ever reaches a text node here with an empty patch list. -/
def applyPropPatches (d : DomNode) (ps : List PropPatch) : DomNode :=
  match d with
  | .text c => .text c
  | .elem t dp cs =>
      .elem t
        (ps.foldl
          (fun acc p =>
            match p with
            | .setProp k v =>
                if startsWithOn k then domAssign acc (jsToLower k) v
                else domAssign acc k v
            | .removeProp k => domAssign acc k (.base .pnull))
          dp)
        cs

mutual
/-- `patch(domNode, script, parentNode)` from the source, stated on the
parent's live child list: `l` is `parentNode.childNodes`, `i` the index of
`domNode` (so `domNode` is `l[i]`, `undefined` when `i` is past the end).
`REMOVE` detaches the node; `REPLACE` materializes the new node and
appends it when the slot is absent (DOM nodes are always truthy, so
`!domNode` is exactly absence), else replaces in place; `TEXT` overwrites
`textContent` (on an element this replaces its children with a single text
node); `UPDATE` applies the prop patches and then each child script
against the node's live child list, sequentially, at successive indices —
exactly the source's `forEach` over the live collection.  The cases where
the source would throw (e.g. `REMOVE`/`TEXT`/`UPDATE` with work to do on
an absent node) are unreachable for the scripts applied below and are
modelled as no-ops. -/
def patch (l : List DomNode) (i : Nat) : Script → List DomNode
  | .remove => if i < l.length then l.eraseIdx i else l
  | .replace n =>
      match l[i]? with
      | some _ => l.set i (createRealDomNode n)
      | none => l ++ [createRealDomNode n]
  | .text n =>
      match l[i]? with
      | some (.text _) => l.set i (.text (stringifyLeaf n))
      | some (.elem t dp _) => l.set i (.elem t dp [.text (stringifyLeaf n)])
      | none => l
  | .update pp cp =>
      match l[i]? with
      | some d =>
          match applyPropPatches d pp with
          | .text c => l.set i (.text c)
          | .elem t dp cs => l.set i (.elem t dp (patchList cs 0 cp))
      | none => l

/-- The `childPatches.forEach((childPatch, i) => patch(...))` loop: applies
each script at the next index of the (mutating) live child list. -/
def patchList (l : List DomNode) (i : Nat) : List Script → List DomNode
  | [] => l
  | s :: rest => patchList (patch l i s) (i + 1) rest
end

mutual
/-- Well-formed vdom trees: exactly those the engine's own `createElement`
produces — scalars, and elements whose children are themselves well-formed
(`undefined`/`null` never appear inside a produced tree, and every
element's `children` entry is an array).  `createRealDomNode` and `diff`
are throw-free on this domain. -/
def wf : VDom → Bool
  | .leaf _ => true
  | .elem _ _ cs => wfList cs
  | .undef => false
  | .jsNull => false

/-- `wf` on a children array. -/
def wfList : List VDom → Bool
  | [] => true
  | c :: cs => wf c && wfList cs
end

/-- Non-absent vdom values: a leaf or an element (what the spec calls a
Node, as opposed to the `null`/`undefined` sentinels). -/
def isNode : VDom → Bool
  | .leaf _ => true
  | .elem _ _ _ => true
  | _ => false

/-- Two scalars of the same JS `typeof` (both strings or both numbers). -/
def sameScalarKind : Scalar → Scalar → Bool
  | .str _, .str _ => true
  | .num _, .num _ => true
  | _, _ => false

/-!
## The hooks variant: `render`/`useState` state model

The hooks file keeps four globals: `currentVDOM`, `currentComponent`,
`hookIndex`, and `stateStorage` (a map from component identity to its
array of hook cells).  All claims concern a single component, so the state
is the pair (hook counter, that component's cell array); the demo stores
numbers in its cells, modelled by `Int`.  A `useState` read returns
`hooks[hookIndex]`, i.e. `none` models JS `undefined` for an out-of-range
read.
-/

/-- The render-relevant global state for the (single) current component. -/
structure HookState where
  hookIndex : Nat
  hooks : List Int
deriving DecidableEq

/-- One `useState(initial)` call from the source: fetch the component's
cell array (empty when absent), push `initial` if `hookIndex` is past the
end, read `hooks[hookIndex]`, and store the array back.  Note the source
never increments `hookIndex`. -/
def useState (initial : Int) (s : HookState) : Option Int × HookState :=
  let hooks := s.hooks
  let hooks := if s.hookIndex ≥ hooks.length then hooks ++ [initial] else hooks
  (hooks[s.hookIndex]?, { s with hooks := hooks })

/-- The `setState(newValue)` closure from the source: writes `newValue`
into `hooks[hookIndex]` (reading the *global* `hookIndex` at call time) and
stores the array back; it then triggers a re-render of the current
component, which the scenarios below perform as the next `renderReset` +
producer invocation. -/
def setState (newValue : Int) (s : HookState) : HookState :=
  { s with hooks := s.hooks.set s.hookIndex newValue }

/-- The state-touching head of `render(component, container)`: marks the
component current and resets `hookIndex` to `0` before invoking the
producer. -/
def renderReset (s : HookState) : HookState :=
  { s with hookIndex := 0 }

/-- The state as it is before the very first render: counter `0`, no cells
stored for the component. -/
def initialHooks : HookState := ⟨0, []⟩

/-- A render pass of a producer that makes exactly two `useState` calls,
with initial values `10` and `20`: the reset `render` performs, then the
two reads in order.  Returns both observed values and the final state. -/
def twoHookRender (s : HookState) : (Option Int × Option Int) × HookState :=
  let s0 := renderReset s
  let (a, s1) := useState 10 s0
  let (b, s2) := useState 20 s1
  ((a, b), s2)

/-- A render pass of the `Counter` producer: the reset `render` performs,
then its single `useState(0)` read. -/
def counterRender (s : HookState) : Option Int × HookState :=
  useState 0 (renderReset s)

/-- Three render passes of `Counter`, each followed by one click whose
handler calls `setCount(count + 1)` with `count` the value that render
observed; the click's `setState` is what triggers the next pass.  Returns
the three observed values in order. -/
def counterTrace : List (Option Int) :=
  let (v1, s1) := counterRender initialHooks
  let s1' := setState ((v1.getD 0) + 1) s1
  let (v2, s2) := counterRender s1'
  let s2' := setState ((v2.getD 0) + 1) s2
  let (v3, _) := counterRender s2'
  [v1, v2, v3]

/-! ## Supporting lemmas -/

/-- Structural induction for the nested inductive `VDom`, giving the
element case its hypothesis for every child. -/
theorem VDom.inductionOn (P : VDom → Prop)
    (hundef : P .undef) (hnull : P .jsNull) (hleaf : ∀ s, P (.leaf s))
    (helem : ∀ t p cs, (∀ c ∈ cs, P c) → P (.elem t p cs)) :
    ∀ v, P v := by
  have key : ∀ (N : Nat) (v : VDom), sizeOf v < N → P v := by
    intro N
    induction N with
    | zero => intro v h; omega
    | succ N ih =>
      intro v h
      match v with
      | .undef => exact hundef
      | .jsNull => exact hnull
      | .leaf s => exact hleaf s
      | .elem t p cs =>
        refine helem t p cs (fun c hc => ih c ?_)
        have hmem := List.sizeOf_lt_of_mem hc
        have : sizeOf (VDom.elem t p cs) = 1 + sizeOf t + sizeOf p + sizeOf cs := by
          simp
        omega
  intro v
  exact key (sizeOf v + 1) v (by omega)

theorem list_set_self {α : Type} (l : List α) (i : Nat) (a : α)
    (h : l[i]? = some a) : l.set i a = l := by
  induction l generalizing i with
  | nil => simp at h
  | cons x xs ih =>
    cases i with
    | zero => simp_all
    | succ j => simp_all

theorem vdomsBEq_refl_of (cs : List VDom)
    (h : ∀ c ∈ cs, vdomBEq c c = true) : vdomsBEq cs cs = true := by
  induction cs with
  | nil => simp [vdomsBEq]
  | cons c rest ih =>
    simp only [vdomsBEq, Bool.and_eq_true]
    exact ⟨h c (by simp), ih (fun c' hc' => h c' (by simp [hc']))⟩

theorem vdomBEq_refl (v : VDom) : vdomBEq v v = true := by
  induction v using VDom.inductionOn with
  | hundef => rfl
  | hnull => rfl
  | hleaf s => simp [vdomBEq]
  | helem t p cs ih =>
    simp only [vdomBEq, Bool.and_eq_true]
    exact ⟨⟨by simp, by simp⟩, vdomsBEq_refl_of cs ih⟩

theorem xvalBEq_refl (v : XVal) : xvalBEq v v = true := by
  cases v with
  | base a => simp [xvalBEq]
  | arr ns => exact vdomsBEq_refl_of ns (fun c _ => vdomBEq_refl c)

theorem getProp_isSome_of_mem {α : Type} (l : List (String × α))
    (kv : String × α) (h : kv ∈ l) : (getProp l kv.1).isSome = true := by
  induction l with
  | nil => simp at h
  | cons x xs ih =>
    simp only [getProp]
    by_cases he : x.1 = kv.1
    · simp [he]
    · rcases List.mem_cons.mp h with h1 | h1
      · rw [h1] at he; simp at he
      · simp [he, ih h1]

theorem getProp_setKey {α : Type} (l : List (String × α)) (k : String)
    (v : α) : getProp (setKey l k v) k = some v := by
  induction l with
  | nil => simp [setKey, getProp]
  | cons x xs ih =>
    by_cases he : x.1 = k
    · cases x; simp_all [setKey, getProp]
    · cases x; simp_all [setKey, getProp]

/-- `diffProps` of any props object against itself is empty: every lookup
compares a value against itself. -/
theorem diffProps_self (mp : Option (List (String × XVal))) :
    diffProps mp mp = [] := by
  simp only [diffProps, List.append_eq_nil]
  constructor
  · rw [List.filterMap_eq_nil_iff]
    intro kv hkv
    cases hg : getProp (mp.getD []) kv.1 with
    | none => simp [hg]
    | some v => simp [hg, xvalBEq_refl]
  · rw [List.filterMap_eq_nil_iff]
    intro kv hkv
    have := getProp_isSome_of_mem _ kv hkv
    cases hg : getProp (mp.getD []) kv.1 with
    | none => rw [hg] at this; simp at this
    | some v => simp [hg]

theorem diffChildren_nil : diffChildren [] [] = .ok [] := by
  simp [diffChildren]

/-- Case 1 of `diff` for an absent (`undefined`) new node. -/
theorem diff_undef_right (o : VDom) : diff o .undef = .ok .remove := by
  simp [diff]

/-- Case 1 of `diff` for a `null` new node. -/
theorem diff_null_right (o : VDom) : diff o .jsNull = .ok .remove := by
  simp [diff]

theorem typeOf_ne_undefined_of_isNode (n : VDom) (h : isNode n = true) :
    typeOf n ≠ "undefined" := by
  cases n with
  | leaf s => cases s <;> simp [typeOf]
  | elem t p cs => simp [typeOf]
  | undef => simp [isNode] at h
  | jsNull => simp [isNode] at h

/-- An absent old slot against a present new node replaces: the `typeof`
test in case 2 fires (`"undefined"` differs from any present node's
`typeof`). -/
theorem diff_undef_left (n : VDom) (h : isNode n = true) :
    diff .undef n = .ok (.replace n) := by
  have ht := typeOf_ne_undefined_of_isNode n h
  cases n with
  | leaf s => cases s <;> simp [diff, typeOf]
  | elem t p cs => simp [diff, typeOf]
  | undef => simp [isNode] at h
  | jsNull => simp [isNode] at h

theorem wf_isNode (v : VDom) (h : wf v = true) : isNode v = true := by
  cases v <;> simp_all [wf, isNode]

theorem wfList_mem (cs : List VDom) (h : wfList cs = true) :
    ∀ c ∈ cs, wf c = true := by
  induction cs with
  | nil => simp
  | cons c rest ih =>
    rw [wfList, Bool.and_eq_true] at h
    intro c' hc'
    rcases List.mem_cons.mp hc' with h1 | h1
    · rw [h1]; exact h.1
    · exact ih h.2 c' h1

theorem createRealDomNodes_eq_map (cs : List VDom) :
    createRealDomNodes cs = cs.map createRealDomNode := by
  induction cs with
  | nil => simp [createRealDomNodes]
  | cons c rest ih => simp [createRealDomNodes, ih]

/-- Diffing a child list against itself yields a script list whose
sequential application leaves any aligned live child list unchanged. -/
theorem diffChildren_self (cs : List VDom)
    (H : ∀ c ∈ cs, ∃ s, diff c c = .ok s ∧
        ∀ (l : List DomNode) (i : Nat),
          l[i]? = some (createRealDomNode c) → patch l i s = l) :
    ∃ sl, diffChildren cs cs = .ok sl ∧
      ∀ (l : List DomNode) (j : Nat),
        (∀ (idx : Nat) (c : VDom), cs[idx]? = some c →
          l[j + idx]? = some (createRealDomNode c)) →
        patchList l j sl = l := by
  induction cs with
  | nil => exact ⟨[], diffChildren_nil, fun l j _ => by simp [patchList]⟩
  | cons c rest ih =>
    obtain ⟨s, hs, hnoop⟩ := H c (by simp)
    obtain ⟨sl, hsl, hsl2⟩ := ih (fun c' hc' => H c' (by simp [hc']))
    refine ⟨s :: sl, by simp [diffChildren, hs, hsl], ?_⟩
    intro l j halign
    have hl : l[j]? = some (createRealDomNode c) := by
      have h0 := halign 0 c (by simp)
      simpa using h0
    simp only [patchList]
    rw [hnoop l j hl]
    apply hsl2
    intro idx c' hc'
    have h2 := halign (idx + 1) c' (by simpa using hc')
    rw [show j + 1 + idx = j + (idx + 1) by omega]
    exact h2

/-- Diffing a well-formed tree against itself succeeds, and applying the
resulting script at any live slot holding that tree's materialization
leaves the live child list unchanged. -/
theorem selfDiffNoop : ∀ t, wf t = true →
    ∃ s, diff t t = .ok s ∧
      ∀ (l : List DomNode) (i : Nat),
        l[i]? = some (createRealDomNode t) → patch l i s = l := by
  intro t
  induction t using VDom.inductionOn with
  | hundef => intro h; simp [wf] at h
  | hnull => intro h; simp [wf] at h
  | hleaf s =>
    intro _
    refine ⟨.update [] [], ?_, ?_⟩
    · cases s <;>
        simp [diff, typeOf, dotType, scalarNeq, childrenOf, diffChildren,
          nodeProps, diffProps]
    · intro l i hl
      have hmat : createRealDomNode (VDom.leaf s) =
          DomNode.text (stringifyLeaf (VDom.leaf s)) := by
        cases s <;> simp [createRealDomNode, stringifyLeaf]
      rw [hmat] at hl
      simp only [patch, hl, applyPropPatches]
      exact list_set_self _ _ _ hl
  | helem ty p cs ih =>
    intro hwf
    rw [wf] at hwf
    obtain ⟨sl, hsl, hsl2⟩ :=
      diffChildren_self cs (fun c hc => ih c hc (wfList_mem cs hwf c hc))
    refine ⟨.update [] sl, ?_, ?_⟩
    · simp [diff, typeOf, dotType, childrenOf, hsl, nodeProps, diffProps_self]
    · intro l i hl
      have hmat : createRealDomNode (VDom.elem ty p cs) =
          DomNode.elem ty (installProps (mergedProps p cs))
            (createRealDomNodes cs) := by
        simp [createRealDomNode]
      rw [hmat] at hl
      have hpatch : patchList (createRealDomNodes cs) 0 sl =
          createRealDomNodes cs := by
        apply hsl2
        intro idx c hc
        rw [createRealDomNodes_eq_map]
        simp [hc]
      simp only [patch, hl, applyPropPatches, List.foldl_nil, hpatch]
      exact list_set_self _ _ _ hl

/-- `diffChildren` succeeds as soon as every aligned `diff` call (a member
of either list, or the `undefined` read past an array's end) succeeds. -/
theorem diffChildren_ok (os ns : List VDom)
    (H : ∀ o' n', (o' ∈ os ∨ o' = .undef) → (n' ∈ ns ∨ n' = .undef) →
      ∃ s, diff o' n' = .ok s) :
    ∃ sl, diffChildren os ns = .ok sl := by
  induction os generalizing ns with
  | nil =>
    induction ns with
    | nil => exact ⟨[], diffChildren_nil⟩
    | cons n ns' ih =>
      obtain ⟨s, hs⟩ := H .undef n (Or.inr rfl) (Or.inl (by simp))
      have H' : ∀ o' n', (o' ∈ ([] : List VDom) ∨ o' = .undef) →
          (n' ∈ ns' ∨ n' = .undef) → ∃ s, diff o' n' = .ok s := by
        intro o' n' ho' hn'
        refine H o' n' ho' ?_
        rcases hn' with h | h
        · exact Or.inl (by simp [h])
        · exact Or.inr h
      obtain ⟨sl, hsl⟩ := ih H'
      exact ⟨s :: sl, by simp [diffChildren, hs, hsl]⟩
  | cons o os' ih =>
    have Hrest : ∀ ms : List VDom, (∀ n', n' ∈ ms → n' ∈ ns) →
        (∀ o' n', (o' ∈ os' ∨ o' = .undef) → (n' ∈ ms ∨ n' = .undef) →
          ∃ s, diff o' n' = .ok s) := by
      intro ms hms o' n' ho' hn'
      refine H o' n' ?_ ?_
      · rcases ho' with h | h
        · exact Or.inl (by simp [h])
        · exact Or.inr h
      · rcases hn' with h | h
        · exact Or.inl (hms n' h)
        · exact Or.inr h
    cases ns with
    | nil =>
      obtain ⟨s, hs⟩ := H o .undef (Or.inl (by simp)) (Or.inr rfl)
      obtain ⟨sl, hsl⟩ := ih [] (Hrest [] (by intro n' h; simp at h))
      exact ⟨s :: sl, by simp [diffChildren, hs, hsl]⟩
    | cons n ns' =>
      obtain ⟨s, hs⟩ := H o n (Or.inl (by simp)) (Or.inl (by simp))
      obtain ⟨sl, hsl⟩ := ih ns' (Hrest ns' (by intro n' h; simp [h]))
      exact ⟨s :: sl, by simp [diffChildren, hs, hsl]⟩

/-- Totality of `diff` on trees free of `null`-vs-element comparisons: the
old side may be `undefined` or any well-formed tree, the new side absent or
well-formed. -/
theorem diff_total_aux : ∀ (N : Nat) (o n : VDom),
    sizeOf o + sizeOf n < N →
    (o = .undef ∨ wf o = true) →
    (n = .undef ∨ n = .jsNull ∨ wf n = true) →
    ∃ s, diff o n = .ok s := by
  intro N
  induction N with
  | zero => intro o n h _ _; omega
  | succ N ih =>
    intro o n hN ho hn
    rcases hn with hn | hn | hn
    · exact hn ▸ ⟨.remove, diff_undef_right o⟩
    · exact hn ▸ ⟨.remove, diff_null_right o⟩
    rcases ho with ho | ho
    · exact ho ▸ ⟨.replace n, diff_undef_left n (wf_isNode n hn)⟩
    cases o with
    | undef => simp [wf] at ho
    | jsNull => simp [wf] at ho
    | leaf a =>
      cases n with
      | undef => simp [wf] at hn
      | jsNull => simp [wf] at hn
      | leaf b =>
        cases a with
        | str s1 =>
          cases b with
          | str s2 =>
            by_cases h : s1 = s2
            · subst h
              exact ⟨.update [] [], by
                simp [diff, typeOf, dotType, scalarNeq, childrenOf,
                  diffChildren, nodeProps, diffProps]⟩
            · exact ⟨.text (VDom.leaf (.str s2)), by
                simp [diff, typeOf, dotType, scalarNeq, h]⟩
          | num n2 =>
            exact ⟨.replace (VDom.leaf (.num n2)), by simp [diff, typeOf]⟩
        | num n1 =>
          cases b with
          | str s2 =>
            exact ⟨.replace (VDom.leaf (.str s2)), by simp [diff, typeOf]⟩
          | num n2 =>
            by_cases h : n1 = n2
            · subst h
              exact ⟨.update [] [], by
                simp [diff, typeOf, dotType, scalarNeq, childrenOf,
                  diffChildren, nodeProps, diffProps]⟩
            · exact ⟨.text (VDom.leaf (.num n2)), by
                simp [diff, typeOf, dotType, scalarNeq, h]⟩
      | elem t2 p2 cs2 =>
        refine ⟨.replace (VDom.elem t2 p2 cs2), ?_⟩
        cases a <;> simp [diff, typeOf]
    | elem t1 p1 cs1 =>
      cases n with
      | undef => simp [wf] at hn
      | jsNull => simp [wf] at hn
      | leaf b =>
        refine ⟨.replace (VDom.leaf b), ?_⟩
        cases b <;> simp [diff, typeOf]
      | elem t2 p2 cs2 =>
        by_cases ht : t1 = t2
        · subst ht
          rw [wf] at ho hn
          obtain ⟨sl, hsl⟩ := diffChildren_ok cs1 cs2 (by
            intro o' n' ho' hn'
            rcases hn' with hn' | hn'
            · rcases ho' with ho' | ho'
              · apply ih
                · have h1 := List.sizeOf_lt_of_mem ho'
                  have h2 := List.sizeOf_lt_of_mem hn'
                  have e1 : sizeOf (VDom.elem t1 p1 cs1) =
                      1 + sizeOf t1 + sizeOf p1 + sizeOf cs1 := by simp
                  have e2 : sizeOf (VDom.elem t1 p2 cs2) =
                      1 + sizeOf t1 + sizeOf p2 + sizeOf cs2 := by simp
                  omega
                · exact .inr (wfList_mem cs1 ho o' ho')
                · exact .inr (.inr (wfList_mem cs2 hn n' hn'))
              · exact ho' ▸
                  ⟨_, diff_undef_left n' (wf_isNode n' (wfList_mem cs2 hn n' hn'))⟩
            · exact hn' ▸ ⟨.remove, diff_undef_right o'⟩)
          exact ⟨.update (diffProps (nodeProps (VDom.elem t1 p1 cs1))
              (nodeProps (VDom.elem t1 p2 cs2))) sl,
            by simp [diff, typeOf, dotType, childrenOf, hsl]⟩
        · exact ⟨.replace (VDom.elem t2 p2 cs2),
            by simp [diff, typeOf, dotType, ht]⟩

/-! ## Claim theorems -/

/-- C1 (refuted, code bug): the spec requires the `"children"` key never to
appear in an `UPDATE` script's attribute-patch list, but `diffProps`
iterates all keys of the merged props objects — which always contain
`children` — and emits `SET_PROP "children"` whenever the two child arrays
differ (in JS, whenever they are distinct array objects).  Here the diff of
two one-child `div`s carries `SET_PROP "children"`. -/
theorem c1_children_emitted_as_prop_patch :
    diff (createElement "div" [] [VDom.leaf (.str "a")])
      (createElement "div" [] [VDom.leaf (.str "b")]) =
    .ok (.update [.setProp "children" (XVal.arr [VDom.leaf (.str "b")])]
      [.text (VDom.leaf (.str "b"))]) := by
  simp [diff, diffChildren, typeOf, dotType, scalarNeq, createElement,
    childrenOf, nodeProps, mergedProps, diffProps, setKey, getProp, xvalBEq,
    vdomsBEq, vdomBEq]

/-- C2 (refuted, code bug): `render` does reset the hook counter to zero,
but `useState` never increments it, so the i-th `useState` call is NOT
assigned cell index i: in a render pass of a producer calling
`useState(10)` then `useState(20)`, both reads return `10` (both hit cell
0), only one cell is ever created, and the counter is still `0`
afterwards. -/
theorem c2_second_useState_reads_cell_zero :
    twoHookRender initialHooks = ((some 10, some 10), ⟨0, [10]⟩) := by
  rfl

/-- C3 counterexample: two Leaf nodes with different scalar values — a
string leaf and a number leaf — produce `REPLACE` (the `typeof` test of
case 2 fires), not `UpdateText(new)` as the claim states. -/
theorem c3_counterexample :
    diff (VDom.leaf (.str "a")) (VDom.leaf (.num 0)) ≠
      Except.ok (.text (VDom.leaf (.num 0))) := by
  have h1 : diff (VDom.leaf (.str "a")) (VDom.leaf (.num 0)) =
      .ok (.replace (VDom.leaf (.num 0))) := by
    simp [diff, typeOf]
  rw [h1]
  simp

/-- C3 (amended): for two Leaf nodes of the same scalar kind (both text or
both number), `diff` yields `UpdateText(new)` when the values differ and
the empty no-op `Update` when they are equal.  (Leaves of different kinds
instead hit the `typeof` test and yield `Replace`.) -/
theorem c3_leaf_diff (a b : Scalar) (hk : sameScalarKind a b = true) :
    (a ≠ b → diff (VDom.leaf a) (VDom.leaf b) = .ok (.text (VDom.leaf b))) ∧
    (a = b → diff (VDom.leaf a) (VDom.leaf b) = .ok (.update [] [])) := by
  constructor
  · intro hne
    cases a with
    | str s1 =>
      cases b with
      | str s2 =>
        have h : s1 ≠ s2 := by intro h; exact hne (by rw [h])
        simp [diff, typeOf, dotType, scalarNeq, h]
      | num n2 => simp [sameScalarKind] at hk
    | num n1 =>
      cases b with
      | str s2 => simp [sameScalarKind] at hk
      | num n2 =>
        have h : n1 ≠ n2 := by intro h; exact hne (by rw [h])
        simp [diff, typeOf, dotType, scalarNeq, h]
  · intro heq
    subst heq
    cases a <;>
      simp [diff, typeOf, dotType, scalarNeq, childrenOf, diffChildren,
        nodeProps, diffProps]

theorem c3_leaf_diff_witness :
    (sameScalarKind (.str "x") (.str "y") = true ∧
      diff (VDom.leaf (.str "x")) (VDom.leaf (.str "y")) =
        .ok (.text (VDom.leaf (.str "y")))) ∧
    (sameScalarKind (.num 3) (.num 3) = true ∧
      diff (VDom.leaf (.num 3)) (VDom.leaf (.num 3)) =
        .ok (.update [] [])) :=
  ⟨⟨rfl, (c3_leaf_diff (.str "x") (.str "y") rfl).1 (by simp)⟩,
   ⟨rfl, (c3_leaf_diff (.num 3) (.num 3) rfl).2 rfl⟩⟩

/-- C4 (refuted, code bug): `SET_PROP` installs an event handler under the
lowercased event name, but `REMOVE_PROP` assigns `null` under the
*original* key.  Applying `Set("onClick", h)` then `Unset("onClick")` to a
fresh node leaves the handler installed under `"onclick"` (and writes
`null` under the separate `"onClick"` property), so the handler slot under
the normalized event name is NOT cleared. -/
theorem c4_unset_does_not_clear_handler :
    getProp (domProps (applyPropPatches (DomNode.elem "div" [] [])
        [.setProp "onClick" (.base (.handler 0)), .removeProp "onClick"]))
      "onclick" = some (.base (.handler 0)) ∧
    getProp (domProps (applyPropPatches (DomNode.elem "div" [] [])
        [.setProp "onClick" (.base (.handler 0)), .removeProp "onClick"]))
      "onClick" = some (.base .pnull) :=
  ⟨rfl, rfl⟩

/-- C5 (confirmed): diffing a well-formed tree against itself succeeds, and
applying the resulting script to the live tree materialized from it (the
container's sole child) leaves the live tree unchanged — in particular
identical in tags, attributes, text and child order. -/
theorem c5_self_diff_patch_is_identity (t : VDom) (h : wf t = true) :
    ∃ s, diff t t = Except.ok s ∧
      patch [createRealDomNode t] 0 s = [createRealDomNode t] := by
  obtain ⟨s, hs, hnoop⟩ := selfDiffNoop t h
  exact ⟨s, hs, hnoop [createRealDomNode t] 0 (by simp)⟩

theorem c5_self_diff_patch_is_identity_witness :
    wf (createElement "div" [("id", .str "app")] [VDom.leaf (.str "Hello")]) = true ∧
    ∃ s,
      diff (createElement "div" [("id", .str "app")] [VDom.leaf (.str "Hello")])
        (createElement "div" [("id", .str "app")] [VDom.leaf (.str "Hello")]) =
        Except.ok s ∧
      patch [createRealDomNode
          (createElement "div" [("id", .str "app")] [VDom.leaf (.str "Hello")])]
        0 s =
        [createRealDomNode
          (createElement "div" [("id", .str "app")] [VDom.leaf (.str "Hello")])] :=
  ⟨by simp [createElement, wf, wfList],
   c5_self_diff_patch_is_identity _ (by simp [createElement, wf, wfList])⟩

/-- C6 (confirmed): for old attrs `{a:1, b:2}` and new attrs `{b:3, c:4}`,
`diffProps` returns exactly `Set(b,3)`, `Set(c,4)`, `Unset(a)` — the Sets
in new-key order followed by the Unsets in old-key order. -/
theorem c6_diffProps_example :
    diffProps (some [("a", XVal.base (.num 1)), ("b", XVal.base (.num 2))])
      (some [("b", XVal.base (.num 3)), ("c", XVal.base (.num 4))]) =
    [.setProp "b" (XVal.base (.num 3)), .setProp "c" (XVal.base (.num 4)),
     .removeProp "a"] := by
  rfl

/-- C7 (confirmed): with equal tags, diffing a 1-child element against a
3-child element yields exactly 3 child scripts whose 2nd and 3rd are
`Replace` of the corresponding new child; diffing a 3-child element
against a 1-child element yields exactly 3 child scripts whose 2nd and
3rd are `Remove`. -/
theorem c7_child_growth_shrink
    (tag : String) (po pn qo qn : List (String × PVal))
    (c1 n1 n2 n3 o1 o2 o3 m1 : VDom) (s1 s2 : Script)
    (hd1 : diff c1 n1 = .ok s1) (hn2 : isNode n2 = true)
    (hn3 : isNode n3 = true) (hd2 : diff o1 m1 = .ok s2) :
    (∃ pp, diff (VDom.elem tag po [c1]) (VDom.elem tag pn [n1, n2, n3]) =
      .ok (.update pp [s1, .replace n2, .replace n3])) ∧
    (∃ pp, diff (VDom.elem tag qo [o1, o2, o3]) (VDom.elem tag qn [m1]) =
      .ok (.update pp [s2, .remove, .remove])) := by
  constructor
  · refine ⟨diffProps (nodeProps (VDom.elem tag po [c1]))
      (nodeProps (VDom.elem tag pn [n1, n2, n3])), ?_⟩
    have e2 := diff_undef_left n2 hn2
    have e3 := diff_undef_left n3 hn3
    simp [diff, typeOf, dotType, childrenOf, diffChildren, hd1, e2, e3]
  · refine ⟨diffProps (nodeProps (VDom.elem tag qo [o1, o2, o3]))
      (nodeProps (VDom.elem tag qn [m1])), ?_⟩
    have r2 := diff_undef_right o2
    have r3 := diff_undef_right o3
    simp [diff, typeOf, dotType, childrenOf, diffChildren, hd2, r2, r3]

theorem c7_child_growth_shrink_witness :
    (diff (VDom.leaf (.str "a")) (VDom.leaf (.str "b")) =
        .ok (.text (VDom.leaf (.str "b"))) ∧
      isNode (VDom.leaf (.str "c")) = true ∧
      isNode (VDom.leaf (.str "d")) = true) ∧
    (∃ pp, diff (VDom.elem "div" [] [VDom.leaf (.str "a")])
        (VDom.elem "div" []
          [VDom.leaf (.str "b"), VDom.leaf (.str "c"), VDom.leaf (.str "d")]) =
      .ok (.update pp
        [.text (VDom.leaf (.str "b")), .replace (VDom.leaf (.str "c")),
         .replace (VDom.leaf (.str "d"))])) ∧
    (∃ pp, diff
        (VDom.elem "div" []
          [VDom.leaf (.str "a"), VDom.leaf (.str "c"), VDom.leaf (.str "d")])
        (VDom.elem "div" [] [VDom.leaf (.str "b")]) =
      .ok (.update pp
        [.text (VDom.leaf (.str "b")), .remove, .remove])) := by
  have hd : diff (VDom.leaf (.str "a")) (VDom.leaf (.str "b")) =
      .ok (.text (VDom.leaf (.str "b"))) := by
    simp [diff, typeOf, dotType, scalarNeq]
  have h := c7_child_growth_shrink "div" [] [] [] []
    (VDom.leaf (.str "a")) (VDom.leaf (.str "b")) (VDom.leaf (.str "c"))
    (VDom.leaf (.str "d")) (VDom.leaf (.str "a")) (VDom.leaf (.str "c"))
    (VDom.leaf (.str "d")) (VDom.leaf (.str "b")) _ _ hd rfl rfl hd
  exact ⟨⟨hd, rfl, rfl⟩, h.1, h.2⟩

/-- C8 (confirmed): a producer reading one state cell with initial value 0
and whose setter is invoked with the incremented value once after each
render observes 0, then 1, then 2 across three successive render passes. -/
theorem c8_counter_observes_0_1_2 :
    counterTrace = [some 0, some 1, some 2] := by
  rfl

/-- C9 (confirmed): for every tag, props mapping (even one already holding
a `children` key) and child list, the element `createElement` builds has a
props object whose `children` entry is exactly the supplied child list —
an array, never `null`; with no children it is the empty array. -/
theorem c9_children_entry (ty : String) (p : List (String × PVal))
    (cs : List VDom) :
    getProp (elemProps (createElement ty p cs)) "children" =
      some (XVal.arr cs) ∧
    XVal.arr cs ≠ XVal.base PVal.pnull := by
  constructor
  · simp [createElement, elemProps, mergedProps, getProp_setKey]
  · simp

/-- C10 counterexample: `diff(null, new)` with `new` an Element does not
return `Replace(new)` — both sides have `typeof` `"object"`, so the source
evaluates `null.type` and throws (`Except.error`). -/
theorem c10_counterexample :
    diff VDom.jsNull (createElement "div" [] []) = .error () := by
  simp [diff, typeOf, dotType, createElement]

/-- C10 (amended): `diff` is total — returns an edit script without
reaching an error state — for an old value that is `undefined` or any
well-formed tree, against any well-formed new tree; and
`diff(undefined, new) = Replace(new)`.  (For old = `null` against an
Element new node the source instead throws, per the counterexample.) -/
theorem c10_diff_total (o n : VDom)
    (ho : o = VDom.undef ∨ wf o = true) (hn : wf n = true) :
    (∃ s, diff o n = Except.ok s) ∧
    diff VDom.undef n = .ok (.replace n) :=
  ⟨diff_total_aux (sizeOf o + sizeOf n + 1) o n (by omega) ho
      (Or.inr (Or.inr hn)),
   diff_undef_left n (wf_isNode n hn)⟩

theorem c10_diff_total_witness :
    ((VDom.leaf (.num 1) = VDom.undef ∨ wf (VDom.leaf (.num 1)) = true) ∧
      wf (VDom.elem "div" [] []) = true) ∧
    ((∃ s, diff (VDom.leaf (.num 1)) (VDom.elem "div" [] []) = Except.ok s) ∧
      diff VDom.undef (VDom.elem "div" [] []) =
        .ok (.replace (VDom.elem "div" [] []))) :=
  ⟨⟨Or.inr (by simp [wf]), by simp [wf, wfList]⟩,
   c10_diff_total (VDom.leaf (.num 1)) (VDom.elem "div" [] [])
     (Or.inr (by simp [wf])) (by simp [wf, wfList])⟩
